import Mathlib

/-!
# Stellar Duels — verification of the core contract logic

A shallow embedding of `src/src/lib.rs` (the `StellarDuelsContract` Soroban
contract).  Conventions of the embedding:

* Addresses are modelled as natural numbers; the contract's own address
  (`env.current_contract_address()`) is passed explicitly as `caddr`.
* `BytesN<32>` digests are byte lists (`List Nat`); the all-zero digest
  `zeroDigest` is the "not committed" sentinel, exactly as in the source.
* The host hash primitive (`env.crypto().sha256`) is external to the core
  (the contract consumes an injected collision-resistant hash), so it is a
  parameter `hash : List Nat → Digest` of the operations that use it.
* The token/ledger collaborator is modelled by an oracle
  `tok : Address → Address → Int → Bool` deciding whether a given
  `transfer(from, to, amount)` succeeds; every successful transfer is
  appended to an instrumentation log `transfers` of the state.
* Each contract invocation is transactional (the Soroban host commits all
  writes of a call atomically or none): an operation is a function
  `ContractState → Except Err …`; a Rust `panic!`/failed `assert!` becomes
  `Except.error`, and `runOp` keeps the caller's state unchanged on error.
* `u64`/`u32` counters are modelled as `Nat` and the `i128` stake as `Int`;
  the claims under study never drive these to their machine bounds.
-/

namespace StellarDuels

abbrev Address := Nat

abbrev Digest := List Nat

/-- The all-zero 32-byte digest used by the contract as the
"not committed" sentinel (`BytesN::from_array(&env, &[0u8; 32])`). -/
def zeroDigest : Digest := List.replicate 32 0

/-- `enum Move` of the source is carried on the wire as `u32` values 1–3
(0 reserved for "not revealed"); the contract itself stores raw `u32`s. -/
inductive GameState where
  | WaitingForPlayer
  | MovesCommitted
  | Completed
deriving DecidableEq, Repr

/-- `struct Game` from the source. -/
structure Game where
  game_id : Nat
  player_one : Address
  player_two : Option Address
  stake_amount : Int
  state : GameState
  p1_commitment : Digest
  p2_commitment : Digest
  p1_move : Nat
  p2_move : Nat
  winner : Option Address
deriving DecidableEq, Repr

/-- `struct Player` from the source. -/
structure Player where
  address : Address
  wins : Nat
  losses : Nat
  draws : Nat
deriving DecidableEq, Repr

/-- Errors: one constructor per distinct `panic!`/`assert!` message (plus
`TransferFailed` for a failing token call and `PanicUnwrapNone` for the
`player_two.unwrap()` in `finalize_game`). -/
inductive Err where
  | NotRegistered
  | GameNotFound
  | InvalidState
  | AlreadyJoined
  | SelfJoin
  | NoSecondPlayer
  | AlreadyCommitted
  | NotParticipant
  | InvalidMove
  | MissingCommitment
  | CommitmentMismatch
  | IncompleteReveal
  | PlayerNotFound
  | TransferFailed
  | PanicUnwrapNone
deriving DecidableEq, Repr

/-- Lookup in an association list (the persistent key-value storage). -/
def findVal {α : Type} : List (Nat × α) → Nat → Option α
  | [], _ => none
  | (k, v) :: rest, key => if k = key then some v else findVal rest key

/-- `storage().set`: overwrite the binding of a key (insert if absent). -/
def setVal {α : Type} : List (Nat × α) → Nat → α → List (Nat × α)
  | [], key, v => [(key, v)]
  | (k, w) :: rest, key, v =>
      if k = key then (k, v) :: rest else (k, w) :: setVal rest key v

/-- The contract's storage together with the instrumented ledger: `counter`
(`DataKey::GameCounter`), `games` (`DataKey::Game(id)`), `players`
(`DataKey::Player(addr)`), `activeGames` (`DataKey::ActiveGames`) and the
log of successful token transfers `(from, to, amount)`. -/
structure ContractState where
  counter : Option Nat
  games : List (Nat × Game)
  players : List (Address × Player)
  activeGames : Option (List Nat)
  transfers : List (Address × Address × Int)
deriving DecidableEq, Repr

/-- The token-collaborator oracle: does `transfer(from, to, amount)` succeed? -/
abbrev TokenFn := Address → Address → Int → Bool

/-- `token::Client::transfer`: atomic — either fully succeeds (and is
logged) or fails with no effect. -/
def tokenTransfer (tok : TokenFn) (s : ContractState)
    (source dest : Address) (amount : Int) : Except Err ContractState :=
  if tok source dest amount then
    Except.ok { s with transfers := s.transfers ++ [(source, dest, amount)] }
  else
    Except.error Err.TransferFailed

/-- `register_player`: idempotent creation of a `Player` profile. -/
def register_player (s : ContractState) (player : Address) :
    ContractState × Player :=
  match findVal s.players player with
  | some existing => (s, existing)
  | none =>
      let new_player : Player :=
        { address := player, wins := 0, losses := 0, draws := 0 }
      ({ s with players := setVal s.players player new_player }, new_player)

/-- `get_and_increment_counter`: read `GameCounter` with default 1, store
the successor, return the value read. -/
def get_and_increment_counter (s : ContractState) : ContractState × Nat :=
  let counter := s.counter.getD 1
  ({ s with counter := some (counter + 1) }, counter)

/-- `add_to_active_games`. -/
def add_to_active_games (s : ContractState) (game_id : Nat) : ContractState :=
  let active := s.activeGames.getD []
  { s with activeGames := some (active ++ [game_id]) }

/-- `remove_from_active_games`: rebuild the list without `game_id`. -/
def remove_from_active_games (s : ContractState) (game_id : Nat) :
    ContractState :=
  let active := s.activeGames.getD []
  { s with activeGames := some (active.filter (fun id => id ≠ game_id)) }

/-- `create_game`: registration check, counter bump, stake escrow, then the
fresh `Game` record is stored and listed active.  Returns the new id. -/
def create_game (tok : TokenFn) (caddr : Address) (s : ContractState)
    (creator : Address) (stake_amount : Int) : Except Err (ContractState × Nat) :=
  if (findVal s.players creator).isNone then Except.error Err.NotRegistered
  else
    let r := get_and_increment_counter s
    let s1 := r.1
    let game_id := r.2
    match tokenTransfer tok s1 creator caddr stake_amount with
    | Except.error e => Except.error e
    | Except.ok s2 =>
        let game : Game :=
          { game_id := game_id
            player_one := creator
            player_two := none
            stake_amount := stake_amount
            state := GameState.WaitingForPlayer
            p1_commitment := zeroDigest
            p2_commitment := zeroDigest
            p1_move := 0
            p2_move := 0
            winner := none }
        let s3 := { s2 with games := setVal s2.games game_id game }
        let s4 := add_to_active_games s3 game_id
        Except.ok (s4, game_id)

/-- `join_game`: state/duplicate/self-play/registration checks, stake
escrow, then `player_two` is set.  The state stays `WaitingForPlayer`. -/
def join_game (tok : TokenFn) (caddr : Address) (s : ContractState)
    (game_id : Nat) (player : Address) : Except Err (ContractState × Game) :=
  match findVal s.games game_id with
  | none => Except.error Err.GameNotFound
  | some game =>
      if game.state ≠ GameState.WaitingForPlayer then Except.error Err.InvalidState
      else if game.player_two.isSome then Except.error Err.AlreadyJoined
      else if player = game.player_one then Except.error Err.SelfJoin
      else if (findVal s.players player).isNone then Except.error Err.NotRegistered
      else
        match tokenTransfer tok s player caddr game.stake_amount with
        | Except.error e => Except.error e
        | Except.ok s1 =>
            let game' := { game with player_two := some player }
            Except.ok ({ s1 with games := setVal s1.games game_id game' }, game')

/-- `commit_move`: requires a second player; stores the commitment in the
caller's slot if that slot still holds the zero sentinel; advances the
state to `MovesCommitted` once both slots are non-zero. -/
def commit_move (s : ContractState) (game_id : Nat) (player : Address)
    (commitment : Digest) : Except Err (ContractState × Game) :=
  match findVal s.games game_id with
  | none => Except.error Err.GameNotFound
  | some game =>
      if game.player_two.isNone then Except.error Err.NoSecondPlayer
      else
        let upd : Except Err Game :=
          if player = game.player_one then
            if game.p1_commitment = zeroDigest then
              Except.ok { game with p1_commitment := commitment }
            else Except.error Err.AlreadyCommitted
          else if some player = game.player_two then
            if game.p2_commitment = zeroDigest then
              Except.ok { game with p2_commitment := commitment }
            else Except.error Err.AlreadyCommitted
          else Except.error Err.NotParticipant
        match upd with
        | Except.error e => Except.error e
        | Except.ok g =>
            let g' :=
              if g.p1_commitment ≠ zeroDigest ∧ g.p2_commitment ≠ zeroDigest then
                { g with state := GameState.MovesCommitted }
              else g
            Except.ok ({ s with games := setVal s.games game_id g' }, g')

/-- `u32::to_be_bytes`: the 4-byte big-endian encoding of a move id. -/
def u32_be_bytes (m : Nat) : List Nat :=
  [m / 2 ^ 24 % 256, m / 2 ^ 16 % 256, m / 2 ^ 8 % 256, m % 256]

/-- `calculate_commitment`: hash of the 36-byte message
`be4(move_id) ++ salt` under the injected host hash. -/
def calculate_commitment (hash : List Nat → Digest) (move_id : Nat)
    (salt : Digest) : Digest :=
  hash (u32_be_bytes move_id ++ salt)

/-- `reveal_move`: requires `MovesCommitted` and a move in 1–3; recomputes
the commitment and requires exact equality with the caller's stored slot;
stores the revealed move.  The state does not change. -/
def reveal_move (hash : List Nat → Digest) (s : ContractState) (game_id : Nat)
    (player : Address) (move_choice : Nat) (salt : Digest) :
    Except Err (ContractState × Game) :=
  match findVal s.games game_id with
  | none => Except.error Err.GameNotFound
  | some game =>
      if game.state ≠ GameState.MovesCommitted then Except.error Err.InvalidState
      else if ¬(1 ≤ move_choice ∧ move_choice ≤ 3) then Except.error Err.InvalidMove
      else
        let calculated := calculate_commitment hash move_choice salt
        let upd : Except Err Game :=
          if player = game.player_one then
            if game.p1_commitment = zeroDigest then Except.error Err.MissingCommitment
            else if calculated ≠ game.p1_commitment then Except.error Err.CommitmentMismatch
            else Except.ok { game with p1_move := move_choice }
          else if some player = game.player_two then
            if game.p2_commitment = zeroDigest then Except.error Err.MissingCommitment
            else if calculated ≠ game.p2_commitment then Except.error Err.CommitmentMismatch
            else Except.ok { game with p2_move := move_choice }
          else Except.error Err.NotParticipant
        match upd with
        | Except.error e => Except.error e
        | Except.ok g =>
            Except.ok ({ s with games := setVal s.games game_id g }, g)

/-- `determine_winner`: draw on equal moves, otherwise the cyclic table
Attack(1) beats Defense(2), Defense(2) beats Magic(3), Magic(3) beats
Attack(1); returns the winning address (`None` = draw). -/
def determine_winner (game : Game) (p1_move p2_move : Nat) : Option Address :=
  if p1_move = p2_move then none
  else
    let p1_wins :=
      match p1_move, p2_move with
      | 1, 2 => true
      | 2, 3 => true
      | 3, 1 => true
      | _, _ => false
    if p1_wins then some game.player_one else game.player_two

/-- `update_player_stats`: bump `wins` or `losses` of a stored player. -/
def update_player_stats (s : ContractState) (player_addr : Address)
    (won : Bool) : Except Err ContractState :=
  match findVal s.players player_addr with
  | none => Except.error Err.PlayerNotFound
  | some player =>
      let player' :=
        if won then { player with wins := player.wins + 1 }
        else { player with losses := player.losses + 1 }
      Except.ok { s with players := setVal s.players player_addr player' }

/-- `increment_draws`: bump `draws` of a stored player. -/
def increment_draws (s : ContractState) (player_addr : Address) :
    Except Err ContractState :=
  match findVal s.players player_addr with
  | none => Except.error Err.PlayerNotFound
  | some player =>
      let player' := { player with draws := player.draws + 1 }
      Except.ok { s with players := setVal s.players player_addr player' }

/-- `finalize_game`: requires `MovesCommitted` and both moves revealed;
resolves the winner, pays out (pot to the winner, or each stake back on a
draw), updates stats, unlists the game and stores it `Completed`. -/
def finalize_game (tok : TokenFn) (caddr : Address) (s : ContractState)
    (game_id : Nat) : Except Err (ContractState × Game) :=
  match findVal s.games game_id with
  | none => Except.error Err.GameNotFound
  | some game =>
      if game.state ≠ GameState.MovesCommitted then Except.error Err.InvalidState
      else if ¬ game.p1_move > 0 then Except.error Err.IncompleteReveal
      else if ¬ game.p2_move > 0 then Except.error Err.IncompleteReveal
      else
        let winner_addr := determine_winner game game.p1_move game.p2_move
        let game' := { game with winner := winner_addr, state := GameState.Completed }
        let total_pot := game.stake_amount * 2
        let settled : Except Err ContractState :=
          match winner_addr with
          | some winner =>
              match tokenTransfer tok s caddr winner total_pot with
              | Except.error e => Except.error e
              | Except.ok s1 =>
                  match update_player_stats s1 game.player_one
                      (decide (winner = game.player_one)) with
                  | Except.error e => Except.error e
                  | Except.ok s2 =>
                      match game.player_two with
                      | none => Except.error Err.PanicUnwrapNone
                      | some p2 =>
                          update_player_stats s2 p2 (decide (winner = p2))
          | none =>
              match tokenTransfer tok s caddr game.player_one game.stake_amount with
              | Except.error e => Except.error e
              | Except.ok s1 =>
                  match game.player_two with
                  | none => Except.error Err.PanicUnwrapNone
                  | some p2 =>
                      match tokenTransfer tok s1 caddr p2 game.stake_amount with
                      | Except.error e => Except.error e
                      | Except.ok s2 =>
                          match increment_draws s2 game.player_one with
                          | Except.error e => Except.error e
                          | Except.ok s3 => increment_draws s3 p2
        match settled with
        | Except.error e => Except.error e
        | Except.ok s1 =>
            let s2 := remove_from_active_games s1 game_id
            Except.ok ({ s2 with games := setVal s2.games game_id game' }, game')

/-- The public state-changing operation surface, for statements that
quantify over all operations. -/
inductive Op where
  | register (player : Address)
  | create (creator : Address) (stake : Int)
  | join (gid : Nat) (player : Address)
  | commit (gid : Nat) (player : Address) (c : Digest)
  | reveal (gid : Nat) (player : Address) (m : Nat) (salt : Digest)
  | finalize (gid : Nat)

/-- Dispatch an operation, dropping the returned entity. -/
def applyOp (hash : List Nat → Digest) (tok : TokenFn) (caddr : Address)
    (s : ContractState) : Op → Except Err ContractState
  | Op.register p => Except.ok (register_player s p).1
  | Op.create cr st => (create_game tok caddr s cr st).map Prod.fst
  | Op.join gid p => (join_game tok caddr s gid p).map Prod.fst
  | Op.commit gid p c => (commit_move s gid p c).map Prod.fst
  | Op.reveal gid p m salt => (reveal_move hash s gid p m salt).map Prod.fst
  | Op.finalize gid => (finalize_game tok caddr s gid).map Prod.fst

/-- Transactional semantics of one host invocation: on error the host
rolls back, so the observable state is unchanged. -/
def runOp (hash : List Nat → Digest) (tok : TokenFn) (caddr : Address)
    (s : ContractState) (op : Op) : ContractState :=
  match applyOp hash tok caddr s op with
  | Except.ok s' => s'
  | Except.error _ => s

/-! ## Storage lemmas -/

theorem findVal_setVal_self {α : Type} (m : List (Nat × α)) (k : Nat) (v : α) :
    findVal (setVal m k v) k = some v := by
  induction m with
  | nil => simp [setVal, findVal]
  | cons hd tl ih =>
      obtain ⟨k0, v0⟩ := hd
      by_cases h : k0 = k
      · simp [setVal, findVal, h]
      · simp [setVal, findVal, h, ih]

theorem findVal_setVal_ne {α : Type} (m : List (Nat × α)) (k k' : Nat) (v : α)
    (h : k' ≠ k) : findVal (setVal m k v) k' = findVal m k' := by
  have h' : ¬ k = k' := fun e => h (Eq.symm e)
  induction m with
  | nil => simp [setVal, findVal, h']
  | cons hd tl ih =>
      obtain ⟨k0, v0⟩ := hd
      by_cases hk : k0 = k
      · subst hk
        simp [setVal, findVal, h']
      · simp [setVal, findVal, hk, ih]

theorem setVal_setVal_same {α : Type} (m : List (Nat × α)) (k : Nat) (v : α) :
    setVal (setVal m k v) k v = setVal m k v := by
  induction m with
  | nil => simp [setVal]
  | cons hd tl ih =>
      obtain ⟨k0, v0⟩ := hd
      by_cases h : k0 = k
      · simp [setVal, h]
      · simp [setVal, h, ih]

/-! ## C1 — the resolution function -/

/-- **C1.** `determine_winner` is total over all 9 pairs of moves from
{Attack=1, Defense=2, Magic=3}: equal moves always yield a draw (`none`),
otherwise the fixed cyclic beats-table applies (Attack beats Defense,
Defense beats Magic, Magic beats Attack), the result is always one of
draw / player one / player two, and it is symmetric under role swap:
player one wins on `(a,b)` iff player two wins on `(b,a)`. -/
theorem determine_winner_total_and_symmetric (g : Game) (q : Address)
    (hp2 : g.player_two = some q) (hne : g.player_one ≠ q) :
    (∀ a b, 1 ≤ a → a ≤ 3 → 1 ≤ b → b ≤ 3 →
      ((a = b → determine_winner g a b = none) ∧
       (determine_winner g a b = none ∨ determine_winner g a b = some g.player_one ∨
         determine_winner g a b = some q) ∧
       (determine_winner g a b = some g.player_one ↔
         determine_winner g b a = some q))) ∧
    determine_winner g 1 2 = some g.player_one ∧
    determine_winner g 2 3 = some g.player_one ∧
    determine_winner g 3 1 = some g.player_one ∧
    determine_winner g 2 1 = some q ∧
    determine_winner g 3 2 = some q ∧
    determine_winner g 1 3 = some q := by
  constructor
  · intro a b ha1 ha3 hb1 hb3
    interval_cases a <;> interval_cases b <;>
      simp [determine_winner, hp2, hne, Ne.symm hne]
  · simp [determine_winner, hp2]

/-- A concrete two-player game used to witness C1. -/
def c1Game : Game :=
  { game_id := 1, player_one := 10, player_two := some 11, stake_amount := 100,
    state := GameState.MovesCommitted,
    p1_commitment := List.replicate 32 7, p2_commitment := List.replicate 32 9,
    p1_move := 1, p2_move := 2, winner := none }

/-- Witness for C1 at the concrete game `c1Game`. -/
theorem determine_winner_total_and_symmetric_witness :
    c1Game.player_two = some 11 ∧ c1Game.player_one ≠ 11 ∧
    determine_winner c1Game 1 2 = some c1Game.player_one ∧
    determine_winner c1Game 3 3 = none :=
  ⟨rfl, by decide,
    (determine_winner_total_and_symmetric c1Game 11 rfl (by decide)).2.1,
    ((determine_winner_total_and_symmetric c1Game 11 rfl (by decide)).1
      3 3 (by decide) (by decide) (by decide) (by decide)).1 rfl⟩

/-! ## create_game: explicit success shape -/

/-- The `Game` record `create_game` stores for a fresh game. -/
def newGame (gid : Nat) (creator : Address) (stake : Int) : Game :=
  { game_id := gid, player_one := creator, player_two := none,
    stake_amount := stake, state := GameState.WaitingForPlayer,
    p1_commitment := zeroDigest, p2_commitment := zeroDigest,
    p1_move := 0, p2_move := 0, winner := none }

/-- When the creator is registered and the escrow transfer succeeds,
`create_game` returns exactly this state: counter bumped, fresh game
stored, id listed active, stake transfer logged. -/
theorem create_game_ok (tok : TokenFn) (caddr : Address) (s : ContractState)
    (creator : Address) (stake : Int)
    (hreg : (findVal s.players creator).isSome = true)
    (hok : tok creator caddr stake = true) :
    create_game tok caddr s creator stake =
      Except.ok
        ({ counter := some (s.counter.getD 1 + 1),
           games := setVal s.games (s.counter.getD 1)
             (newGame (s.counter.getD 1) creator stake),
           players := s.players,
           activeGames := some (s.activeGames.getD [] ++ [s.counter.getD 1]),
           transfers := s.transfers ++ [(creator, caddr, stake)] },
         s.counter.getD 1) := by
  obtain ⟨p, hp⟩ := Option.isSome_iff_exists.mp hreg
  simp [create_game, hp, tokenTransfer, hok, get_and_increment_counter,
    add_to_active_games, newGame]

/-- **C10.** `create_game` performs no validation of `stake_amount`: for
every `i128` value, including zero and negative ones, if the token
transfer succeeds then the game record is created with exactly that
stake, with no lower-bound or positivity check by the core. -/
theorem create_game_no_stake_validation (tok : TokenFn) (caddr : Address)
    (s : ContractState) (creator : Address) (stake : Int)
    (hreg : (findVal s.players creator).isSome = true)
    (hok : tok creator caddr stake = true) :
    ∃ s' gid, create_game tok caddr s creator stake = Except.ok (s', gid) ∧
      ∃ g, findVal s'.games gid = some g ∧ g.stake_amount = stake ∧
        g.player_one = creator ∧ g.state = GameState.WaitingForPlayer := by
  refine ⟨_, _, create_game_ok tok caddr s creator stake hreg hok,
    newGame (s.counter.getD 1) creator stake, ?_, rfl, rfl, rfl⟩
  exact findVal_setVal_self s.games (s.counter.getD 1)
    (newGame (s.counter.getD 1) creator stake)

/-- A token oracle that accepts every transfer. -/
def allowAll : TokenFn := fun _ _ _ => true

/-- A token oracle that rejects every transfer. -/
def denyAll : TokenFn := fun _ _ _ => false

/-- A state with players 10 and 11 registered and no games. -/
def regState : ContractState :=
  { counter := none, games := [],
    players := [(10, { address := 10, wins := 0, losses := 0, draws := 0 }),
                (11, { address := 11, wins := 0, losses := 0, draws := 0 })],
    activeGames := none, transfers := [] }

/-- Witness for C10: a game is created with a negative stake of -5. -/
theorem create_game_no_stake_validation_witness :
    (findVal regState.players 10).isSome = true ∧ allowAll 10 0 (-5) = true ∧
    (∃ s' gid, create_game allowAll 0 regState 10 (-5) = Except.ok (s', gid) ∧
      ∃ g, findVal s'.games gid = some g ∧ g.stake_amount = -5 ∧
        g.player_one = 10 ∧ g.state = GameState.WaitingForPlayer) :=
  ⟨by decide, rfl,
    create_game_no_stake_validation allowAll 0 regState 10 (-5) (by decide) rfl⟩

/-- **C4.** `create_game` is atomic with respect to the stake transfer: if
the escrow transfer fails, the whole invocation fails, so no `Game`
record is created and the game-id counter is not left incremented — the
observable state after the call is exactly the state before it, even
though the code bumps the counter before attempting the transfer. -/
theorem create_game_atomic_on_transfer_failure (hash : List Nat → Digest)
    (tok : TokenFn) (caddr : Address) (s : ContractState) (creator : Address)
    (stake : Int)
    (hreg : (findVal s.players creator).isSome = true)
    (hfail : tok creator caddr stake = false) :
    create_game tok caddr s creator stake = Except.error Err.TransferFailed ∧
    runOp hash tok caddr s (Op.create creator stake) = s := by
  obtain ⟨p, hp⟩ := Option.isSome_iff_exists.mp hreg
  have h1 : create_game tok caddr s creator stake = Except.error Err.TransferFailed := by
    simp [create_game, hp, tokenTransfer, hfail, get_and_increment_counter]
  exact ⟨h1, by simp [runOp, applyOp, h1, Except.map]⟩

/-- Witness for C4: with every transfer rejected, creating a game from
`regState` fails and leaves the state untouched. -/
theorem create_game_atomic_on_transfer_failure_witness :
    (findVal regState.players 10).isSome = true ∧ denyAll 10 0 100 = false ∧
    create_game denyAll 0 regState 10 100 = Except.error Err.TransferFailed ∧
    runOp (fun l => l) denyAll 0 regState (Op.create 10 100) = regState :=
  ⟨by decide, rfl,
    (create_game_atomic_on_transfer_failure (fun l => l) denyAll 0 regState 10 100
      (by decide) rfl).1,
    (create_game_atomic_on_transfer_failure (fun l => l) denyAll 0 regState 10 100
      (by decide) rfl).2⟩

/-- **C7.** `finalize_game` requires state `MovesCommitted` and both moves
non-zero: if at least one player has not revealed, it fails with the
incomplete-reveal error, the game state remains `MovesCommitted` (the
state is unchanged) and no funds are transferred. -/
theorem finalize_requires_both_reveals (hash : List Nat → Digest)
    (tok : TokenFn) (caddr : Address) (s : ContractState) (game_id : Nat)
    (g : Game) (hg : findVal s.games game_id = some g)
    (hstate : g.state = GameState.MovesCommitted)
    (hmv : g.p1_move = 0 ∨ g.p2_move = 0) :
    finalize_game tok caddr s game_id = Except.error Err.IncompleteReveal ∧
    runOp hash tok caddr s (Op.finalize game_id) = s := by
  have h1 : finalize_game tok caddr s game_id = Except.error Err.IncompleteReveal := by
    by_cases h1' : g.p1_move = 0
    · simp [finalize_game, hg, hstate, h1']
    · rcases hmv with h | h
      · exact absurd h h1'
      · simp [finalize_game, hg, hstate, h, Nat.pos_of_ne_zero h1']
  exact ⟨h1, by simp [runOp, applyOp, h1, Except.map]⟩

/-- A `MovesCommitted` game where only player one has revealed. -/
def c7Game : Game :=
  { game_id := 1, player_one := 10, player_two := some 11,
    stake_amount := 100, state := GameState.MovesCommitted,
    p1_commitment := List.replicate 32 7, p2_commitment := List.replicate 32 9,
    p1_move := 1, p2_move := 0, winner := none }

/-- A state holding `c7Game` under id 1. -/
def c7State : ContractState :=
  { counter := some 2, games := [(1, c7Game)],
    players := regState.players, activeGames := some [1], transfers := [] }

/-- Witness for C7: finalizing `c7State`'s game fails and changes nothing. -/
theorem finalize_requires_both_reveals_witness :
    finalize_game allowAll 0 c7State 1 = Except.error Err.IncompleteReveal ∧
    runOp (fun l => l) allowAll 0 c7State (Op.finalize 1) = c7State :=
  ⟨(finalize_requires_both_reveals (fun l => l) allowAll 0 c7State 1 c7Game
      (by decide) (by decide) (Or.inr (by decide))).1,
    (finalize_requires_both_reveals (fun l => l) allowAll 0 c7State 1 c7Game
      (by decide) (by decide) (Or.inr (by decide))).2⟩

/-! ## C3 — reveal verifies the commitment -/

/-- **C3.** For a game in `MovesCommitted` and a participant calling
`reveal_move` with a move in 1–3: the call succeeds exactly when the
caller's stored commitment is non-zero and the hash of the big-endian
4-byte move encoding concatenated with the salt equals it; on a mismatch
(with a commitment present) the call fails with `CommitmentMismatch` and
the state — in particular the caller's move field — is unchanged. -/
theorem reveal_move_checks_commitment (hash : List Nat → Digest)
    (tok : TokenFn) (caddr : Address) (s : ContractState) (game_id : Nat)
    (player : Address) (move_choice : Nat) (salt : Digest) (g : Game)
    (hg : findVal s.games game_id = some g)
    (hstate : g.state = GameState.MovesCommitted)
    (hmv : 1 ≤ move_choice ∧ move_choice ≤ 3)
    (hpart : player = g.player_one ∨ some player = g.player_two) :
    ((reveal_move hash s game_id player move_choice salt).isOk = true ↔
      ((if player = g.player_one then g.p1_commitment else g.p2_commitment) ≠
          zeroDigest ∧
        calculate_commitment hash move_choice salt =
          (if player = g.player_one then g.p1_commitment else g.p2_commitment))) ∧
    (calculate_commitment hash move_choice salt ≠
        (if player = g.player_one then g.p1_commitment else g.p2_commitment) →
      (if player = g.player_one then g.p1_commitment else g.p2_commitment) ≠
        zeroDigest →
      reveal_move hash s game_id player move_choice salt =
          Except.error Err.CommitmentMismatch ∧
        runOp hash tok caddr s (Op.reveal game_id player move_choice salt) = s) := by
  by_cases hp1 : player = g.player_one
  · by_cases hz : g.p1_commitment = zeroDigest
    · constructor
      · simp [reveal_move, hg, hstate, hmv, hp1, hz, Except.isOk, Except.toBool]
      · intro _ hnz
        exact absurd (by simpa [hp1] using hz) (by simpa [hp1] using hnz)
    · by_cases hcm : calculate_commitment hash move_choice salt = g.p1_commitment
      · constructor
        · simp [reveal_move, hg, hstate, hmv, hp1, hz, hcm, Except.isOk, Except.toBool]
        · intro hmm
          exact absurd (by simpa [hp1] using hcm) (by simpa [hp1] using hmm)
      · have herr : reveal_move hash s game_id player move_choice salt =
            Except.error Err.CommitmentMismatch := by
          simp [reveal_move, hg, hstate, hmv, hp1, hz, hcm]
        constructor
        · rw [herr]
          simp [Except.isOk, Except.toBool, hp1, hcm]
        · intro _ _
          exact ⟨herr, by simp [runOp, applyOp, herr, Except.map]⟩
  · have hp2 : some player = g.player_two := hpart.resolve_left hp1
    by_cases hz : g.p2_commitment = zeroDigest
    · constructor
      · simp [reveal_move, hg, hstate, hmv, hp1, hp2.symm, hz, Except.isOk, Except.toBool]
      · intro _ hnz
        exact absurd (by simpa [hp1] using hz) (by simpa [hp1] using hnz)
    · by_cases hcm : calculate_commitment hash move_choice salt = g.p2_commitment
      · constructor
        · simp [reveal_move, hg, hstate, hmv, hp1, hp2.symm, hz, hcm, Except.isOk, Except.toBool]
        · intro hmm
          exact absurd (by simpa [hp1] using hcm) (by simpa [hp1] using hmm)
      · have herr : reveal_move hash s game_id player move_choice salt =
            Except.error Err.CommitmentMismatch := by
          simp [reveal_move, hg, hstate, hmv, hp1, hp2.symm, hz, hcm]
        constructor
        · rw [herr]
          simp [Except.isOk, Except.toBool, hp1, hcm]
        · intro _ _
          exact ⟨herr, by simp [runOp, applyOp, herr, Except.map]⟩

/-- A stand-in for the injected host hash, used in concrete witnesses:
the claims under test hold for every hash function. -/
def exHash : List Nat → Digest := fun l => l

/-- A concrete 32-byte salt. -/
def exSalt : Digest := List.replicate 32 1

/-- A game whose stored commitments are the (exHash) commitments to
move 1 for player one and move 2 for player two. -/
def c3Game : Game :=
  { game_id := 1, player_one := 10, player_two := some 11, stake_amount := 100,
    state := GameState.MovesCommitted,
    p1_commitment := u32_be_bytes 1 ++ exSalt,
    p2_commitment := u32_be_bytes 2 ++ exSalt,
    p1_move := 0, p2_move := 0, winner := none }

/-- A state holding `c3Game` under id 1. -/
def c3State : ContractState :=
  { counter := some 2, games := [(1, c3Game)],
    players := regState.players, activeGames := some [1], transfers := [] }

/-- Witness for C3: player one committed to move 1 but reveals move 2 with
the same salt; the call fails with `CommitmentMismatch` and changes
nothing. -/
theorem reveal_move_checks_commitment_witness :
    findVal c3State.games 1 = some c3Game ∧
    reveal_move exHash c3State 1 10 2 exSalt =
      Except.error Err.CommitmentMismatch ∧
    runOp exHash allowAll 0 c3State (Op.reveal 1 10 2 exSalt) = c3State :=
  ⟨by decide,
    ((reveal_move_checks_commitment exHash allowAll 0 c3State 1 10 2 exSalt c3Game
      (by decide) (by decide) (by decide) (Or.inl (by decide))).2
      (by decide) (by decide)).1,
    ((reveal_move_checks_commitment exHash allowAll 0 c3State 1 10 2 exSalt c3Game
      (by decide) (by decide) (by decide) (Or.inl (by decide))).2
      (by decide) (by decide)).2⟩

/-! ## C5 — reveal replay -/

/-- A `MovesCommitted` game before any reveal, committed (under `exHash`)
to move 1 / move 2. -/
def c5Game0 : Game :=
  { game_id := 1, player_one := 10, player_two := some 11, stake_amount := 100,
    state := GameState.MovesCommitted,
    p1_commitment := u32_be_bytes 1 ++ exSalt,
    p2_commitment := u32_be_bytes 2 ++ exSalt,
    p1_move := 0, p2_move := 0, winner := none }

/-- A state holding `c5Game0` under id 1. -/
def c5State0 : ContractState :=
  { counter := some 2, games := [(1, c5Game0)],
    players := regState.players, activeGames := some [1], transfers := [] }

/-- `c5Game0` after player one's reveal of move 1. -/
def c5Game1 : Game := { c5Game0 with p1_move := 1 }

/-- `c5State0` after player one's reveal of move 1. -/
def c5State1 : ContractState := { c5State0 with games := [(1, c5Game1)] }

/-- Counterexample to C5 as stated: player one successfully reveals move 1,
and an identical second `reveal_move` call succeeds again — the code has
no check that the move field is still 0, so a replayed reveal is
re-executed rather than rejected. -/
theorem reveal_replay_not_rejected :
    reveal_move exHash c5State0 1 10 1 exSalt = Except.ok (c5State1, c5Game1) ∧
    (reveal_move exHash c5State1 1 10 1 exSalt).isOk = true :=
  ⟨by rfl, by rfl⟩

/-- **C5 (amended).** Once a player has successfully revealed, an identical
second `reveal_move` call by the same player is not rejected: it succeeds
again and returns the very same state and game (a replay is idempotent —
it re-stores the same move; it can never change the stored move to one
whose commitment does not match). -/
theorem reveal_replay_idempotent (hash : List Nat → Digest) (s : ContractState)
    (game_id : Nat) (player : Address) (move_choice : Nat) (salt : Digest)
    (s1 : ContractState) (g1 : Game)
    (h : reveal_move hash s game_id player move_choice salt = Except.ok (s1, g1)) :
    reveal_move hash s1 game_id player move_choice salt = Except.ok (s1, g1) := by
  simp only [reveal_move] at h ⊢
  split at h
  · exact absurd h (by simp)
  next game hgame =>
    split at h
    · exact absurd h (by simp)
    next hstate =>
      split at h
      · exact absurd h (by simp)
      next hmv =>
        split at h
        next e he =>
          exact absurd h (by simp)
        next g hupd =>
          rw [Except.ok.injEq, Prod.mk.injEq] at h
          obtain ⟨hs1, hg1⟩ := h
          subst hs1
          subst hg1
          rw [show findVal (ContractState.games
              { s with games := setVal s.games game_id g }) game_id = some g from
            findVal_setVal_self s.games game_id g]
          split at hupd
          next hp1 =>
            split at hupd
            next hz => exact absurd hupd (by simp)
            next hz =>
              split at hupd
              next hcm => exact absurd hupd (by simp)
              next hcm =>
                rw [Except.ok.injEq] at hupd
                subst hupd
                simp only [Game.state, Game.p1_commitment, Game.p2_commitment]
                rw [if_neg (by simpa using hstate), if_neg (by simpa using hmv),
                  if_pos hp1, if_neg hz, if_neg hcm]
                simp [setVal_setVal_same]
          next hp1 =>
            split at hupd
            next hp2 =>
              split at hupd
              next hz => exact absurd hupd (by simp)
              next hz =>
                split at hupd
                next hcm => exact absurd hupd (by simp)
                next hcm =>
                  rw [Except.ok.injEq] at hupd
                  subst hupd
                  simp only [Game.state, Game.p1_commitment, Game.p2_commitment]
                  rw [if_neg (by simpa using hstate), if_neg (by simpa using hmv),
                    if_neg (by simpa using hp1), if_pos (by simpa using hp2),
                    if_neg hz, if_neg hcm]
                  simp [setVal_setVal_same]
            next hp2 => exact absurd hupd (by simp)

/-- Witness for the amended C5 at the concrete replay from the
counterexample state: the second identical reveal returns the same
state. -/
theorem reveal_replay_idempotent_witness :
    reveal_move exHash c5State1 1 10 1 exSalt = Except.ok (c5State1, c5Game1) :=
  reveal_replay_idempotent exHash c5State0 1 10 1 exSalt c5State1 c5Game1 (by rfl)

/-! ## C6 — at-most-once commit -/

/-- A two-player game with no commitments yet. -/
def c6Game0 : Game :=
  { game_id := 2, player_one := 10, player_two := some 11, stake_amount := 100,
    state := GameState.WaitingForPlayer,
    p1_commitment := zeroDigest, p2_commitment := zeroDigest,
    p1_move := 0, p2_move := 0, winner := none }

/-- A state holding `c6Game0` under id 2. -/
def c6State0 : ContractState :=
  { counter := some 3, games := [(2, c6Game0)], players := regState.players,
    activeGames := some [2], transfers := [] }

/-- A non-zero commitment digest. -/
def c6Commit : Digest := List.replicate 32 5

/-- Counterexample to C6 as stated: player one first commits the all-zero
digest (the call succeeds — the code never checks the submitted value
against the sentinel), and a second `commit_move` by the same player also
succeeds and overwrites the stored commitment, instead of failing with an
already-committed error. -/
theorem commit_second_call_can_succeed :
    commit_move c6State0 2 10 zeroDigest = Except.ok (c6State0, c6Game0) ∧
    commit_move c6State0 2 10 c6Commit =
      Except.ok
        ({ c6State0 with games :=
            [(2, { c6Game0 with p1_commitment := c6Commit })] },
          { c6Game0 with p1_commitment := c6Commit }) :=
  ⟨by rfl, by rfl⟩

/-- **C6 (amended).** For a game with two players, after a successful
`commit_move` whose committed digest is not the all-zero sentinel, a
second `commit_move` call from the same player fails with
`AlreadyCommitted` and leaves the stored commitment (and the whole state)
unchanged.  (A first commit of the all-zero digest is indistinguishable
from "not committed" and can be overwritten — see the counterexample.) -/
theorem commit_at_most_once_amended (hash : List Nat → Digest) (tok : TokenFn)
    (caddr : Address) (s : ContractState) (game_id : Nat) (player : Address)
    (c c2 : Digest) (s1 : ContractState) (g1 : Game)
    (h : commit_move s game_id player c = Except.ok (s1, g1))
    (hc : c ≠ zeroDigest) :
    commit_move s1 game_id player c2 = Except.error Err.AlreadyCommitted ∧
    (if player = g1.player_one then g1.p1_commitment else g1.p2_commitment) = c ∧
    runOp hash tok caddr s1 (Op.commit game_id player c2) = s1 := by
  have main : commit_move s1 game_id player c2 =
      Except.error Err.AlreadyCommitted ∧
      (if player = g1.player_one then g1.p1_commitment else g1.p2_commitment) = c := by
    simp only [commit_move] at h ⊢
    split at h
    · exact absurd h (by simp)
    next game hgame =>
      split at h
      · exact absurd h (by simp)
      next hpt =>
        split at h
        next e hupd => exact absurd h (by simp)
        next g hupd =>
          rw [Except.ok.injEq, Prod.mk.injEq] at h
          obtain ⟨hs1, hg1⟩ := h
          subst hs1
          subst hg1
          split at hupd
          next hp1 =>
            split at hupd
            next hz =>
              rw [Except.ok.injEq] at hupd
              subst hupd
              by_cases hb : game.p2_commitment = zeroDigest
              · simp [findVal_setVal_self, hp1, hpt, hc, hb]
              · simp [findVal_setVal_self, hp1, hpt, hc, hb]
            next hz => exact absurd hupd (by simp)
          next hp1 =>
            split at hupd
            next hp2 =>
              split at hupd
              next hz =>
                rw [Except.ok.injEq] at hupd
                subst hupd
                by_cases hb : game.p1_commitment = zeroDigest
                · simp [findVal_setVal_self, hp1, hp2.symm, hpt, hc, hb]
                · simp [findVal_setVal_self, hp1, hp2.symm, hpt, hc, hb]
              next hz => exact absurd hupd (by simp)
            next hp2 => exact absurd hupd (by simp)
  exact ⟨main.1, main.2, by simp [runOp, applyOp, main.1, Except.map]⟩

/-- Inversion of a successful `tokenTransfer`. -/
theorem tokenTransfer_ok (tok : TokenFn) (s : ContractState)
    (source dest : Address) (amount : Int) (s' : ContractState)
    (h : tokenTransfer tok s source dest amount = Except.ok s') :
    tok source dest amount = true ∧
    s' = { s with transfers := s.transfers ++ [(source, dest, amount)] } := by
  unfold tokenTransfer at h
  split at h
  next hc =>
    rw [Except.ok.injEq] at h
    exact ⟨hc, h.symm⟩
  next hc => exact absurd h (by simp)

/-- The stats update applied by `update_player_stats`. -/
def bumpWinLoss (P : Player) (won : Bool) : Player :=
  if won then { P with wins := P.wins + 1 } else { P with losses := P.losses + 1 }

/-- Inversion of a successful `update_player_stats`. -/
theorem update_player_stats_ok (s : ContractState) (a : Address) (won : Bool)
    (s' : ContractState) (h : update_player_stats s a won = Except.ok s') :
    ∃ P, findVal s.players a = some P ∧
      s' = { s with players := setVal s.players a (bumpWinLoss P won) } := by
  unfold update_player_stats at h
  split at h
  · exact absurd h (by simp)
  next P hP =>
    rw [Except.ok.injEq] at h
    exact ⟨P, hP, by rw [← h]; rfl⟩

/-- Inversion of a successful `increment_draws`. -/
theorem increment_draws_ok (s : ContractState) (a : Address)
    (s' : ContractState) (h : increment_draws s a = Except.ok s') :
    ∃ P, findVal s.players a = some P ∧
      s' = { s with players := setVal s.players a { P with draws := P.draws + 1 } } := by
  unfold increment_draws at h
  split at h
  · exact absurd h (by simp)
  next P hP =>
    rw [Except.ok.injEq] at h
    exact ⟨P, hP, h.symm⟩

/-! ## finalize_game: inversion of a successful run -/

/-- Full characterisation of a successful `finalize_game`: the stored game
was `MovesCommitted` with both moves revealed and a second player present,
and the resulting state is exactly the input state with the pot paid out,
stats updated (in source order: player one first, then player two, the
second lookup seeing the first write), the id unlisted and the completed
game stored. -/
theorem finalize_game_ok_shape (tok : TokenFn) (caddr : Address)
    (s : ContractState) (game_id : Nat) (s' : ContractState) (gret : Game)
    (h : finalize_game tok caddr s game_id = Except.ok (s', gret)) :
    ∃ g p2, findVal s.games game_id = some g ∧ g.player_two = some p2 ∧
      g.state = GameState.MovesCommitted ∧ 0 < g.p1_move ∧ 0 < g.p2_move ∧
      gret = { g with winner := determine_winner g g.p1_move g.p2_move,
                      state := GameState.Completed } ∧
      ((∃ w P1 P2, determine_winner g g.p1_move g.p2_move = some w ∧
          findVal s.players g.player_one = some P1 ∧
          findVal (setVal s.players g.player_one
              (if w = g.player_one then { P1 with wins := P1.wins + 1 }
               else { P1 with losses := P1.losses + 1 })) p2 = some P2 ∧
          s' = { counter := s.counter,
                 games := setVal s.games game_id gret,
                 players := setVal (setVal s.players g.player_one
                     (if w = g.player_one then { P1 with wins := P1.wins + 1 }
                      else { P1 with losses := P1.losses + 1 })) p2
                   (if w = p2 then { P2 with wins := P2.wins + 1 }
                    else { P2 with losses := P2.losses + 1 }),
                 activeGames := some ((s.activeGames.getD []).filter
                   (fun id => id ≠ game_id)),
                 transfers := s.transfers ++ [(caddr, w, g.stake_amount * 2)] }) ∨
       (∃ P1 P2, determine_winner g g.p1_move g.p2_move = none ∧
          findVal s.players g.player_one = some P1 ∧
          findVal (setVal s.players g.player_one
              { P1 with draws := P1.draws + 1 }) p2 = some P2 ∧
          s' = { counter := s.counter,
                 games := setVal s.games game_id gret,
                 players := setVal (setVal s.players g.player_one
                     { P1 with draws := P1.draws + 1 }) p2
                   { P2 with draws := P2.draws + 1 },
                 activeGames := some ((s.activeGames.getD []).filter
                   (fun id => id ≠ game_id)),
                 transfers := s.transfers ++
                   [(caddr, g.player_one, g.stake_amount),
                    (caddr, p2, g.stake_amount)] })) := by
  simp only [finalize_game] at h
  split at h
  · exact absurd h (by simp)
  next game hgame =>
    split at h
    · exact absurd h (by simp)
    next hstate =>
      split at h
      · exact absurd h (by simp)
      next hm1 =>
        split at h
        · exact absurd h (by simp)
        next hm2 =>
          split at h
          next e hset => exact absurd h (by simp)
          next s1 hset =>
            rw [Except.ok.injEq, Prod.mk.injEq] at h
            obtain ⟨hs', hgret⟩ := h
            subst hgret
            split at hset
            next w hw =>
              split at hset
              next e htok => exact absurd hset (by simp)
              next st htok =>
                obtain ⟨htokb, hst⟩ := tokenTransfer_ok _ _ _ _ _ _ htok
                subst hst
                split at hset
                next e hup => exact absurd hset (by simp)
                next s2 hup =>
                  obtain ⟨P1, hP1, hs2⟩ := update_player_stats_ok _ _ _ _ hup
                  subst hs2
                  split at hset
                  next hp2 => exact absurd hset (by simp)
                  next p2 hp2 =>
                    obtain ⟨P2, hP2, hs1⟩ := update_player_stats_ok _ _ _ _ hset
                    subst hs1
                    subst hs'
                    refine ⟨game, p2, hgame, hp2, not_ne_iff.mp hstate,
                      not_not.mp hm1, not_not.mp hm2, rfl,
                      Or.inl ⟨w, P1, P2, hw, hP1, ?_, ?_⟩⟩
                    · by_cases hwp : w = game.player_one <;>
                        simpa [hwp, bumpWinLoss] using hP2
                    · by_cases hwp : w = game.player_one <;>
                        by_cases hwq : w = p2
                      · simp [remove_from_active_games, hw, hwp, hwq, bumpWinLoss,
                          hwp.symm.trans hwq]
                      · simp [remove_from_active_games, hw, hwp, hwq, bumpWinLoss,
                          fun hh => hwq (hwp.trans hh)]
                      · simp [remove_from_active_games, hw, hwp, hwq, bumpWinLoss,
                          fun hh => hwp (hwq.trans hh)]
                      · simp [remove_from_active_games, hw, hwp, hwq, bumpWinLoss]
            next hw =>
              split at hset
              next e htok1 => exact absurd hset (by simp)
              next st1 htok1 =>
                obtain ⟨htokb1, hst1⟩ := tokenTransfer_ok _ _ _ _ _ _ htok1
                subst hst1
                split at hset
                next hp2 => exact absurd hset (by simp)
                next p2 hp2 =>
                  split at hset
                  next e htok2 => exact absurd hset (by simp)
                  next st2 htok2 =>
                    obtain ⟨htokb2, hst2⟩ := tokenTransfer_ok _ _ _ _ _ _ htok2
                    subst hst2
                    split at hset
                    next e hd1 => exact absurd hset (by simp)
                    next s3 hd1 =>
                      obtain ⟨P1, hP1, hs3⟩ := increment_draws_ok _ _ _ hd1
                      subst hs3
                      obtain ⟨P2, hP2, hs1⟩ := increment_draws_ok _ _ _ hset
                      subst hs1
                      subst hs'
                      refine ⟨game, p2, hgame, hp2, not_ne_iff.mp hstate,
                        not_not.mp hm1, not_not.mp hm2, rfl,
                        Or.inr ⟨P1, P2, hw, hP1, hP2, ?_⟩⟩
                      simp [remove_from_active_games, hw, List.append_assoc]

/-! ## C2 — escrow conservation at settlement -/

/-- **C2.** For every game that reaches a successful `finalize_game` (both
moves revealed), the funds transferred out during settlement total exactly
`stake_amount * 2` regardless of outcome: on a win, a single transfer of
the whole pot to the winner; on a draw, two transfers of exactly
`stake_amount`, one back to each player. -/
theorem finalize_settlement_conserves_escrow (tok : TokenFn) (caddr : Address)
    (s : ContractState) (game_id : Nat) (s' : ContractState) (gret : Game)
    (g : Game)
    (h : finalize_game tok caddr s game_id = Except.ok (s', gret))
    (hg : findVal s.games game_id = some g) :
    ∃ p2, g.player_two = some p2 ∧
      ((∃ w, determine_winner g g.p1_move g.p2_move = some w ∧
          s'.transfers = s.transfers ++ [(caddr, w, g.stake_amount * 2)]) ∨
       (determine_winner g g.p1_move g.p2_move = none ∧
        s'.transfers = s.transfers ++
          [(caddr, g.player_one, g.stake_amount), (caddr, p2, g.stake_amount)])) ∧
      ((s'.transfers.drop s.transfers.length).map (fun t => t.2.2)).sum =
        g.stake_amount * 2 := by
  obtain ⟨g0, p2, hg0, hp2, _, _, _, _, hcase⟩ :=
    finalize_game_ok_shape tok caddr s game_id s' gret h
  have hgg : g = g0 := Option.some_inj.mp (hg.symm.trans hg0)
  subst hgg
  rcases hcase with ⟨w, P1, P2, hw, _, _, hs'⟩ | ⟨P1, P2, hw, _, _, hs'⟩
  · subst hs'
    refine ⟨p2, hp2, Or.inl ⟨w, hw, rfl⟩, ?_⟩
    simp [List.drop_left]
  · subst hs'
    refine ⟨p2, hp2, Or.inr ⟨hw, rfl⟩, ?_⟩
    simp [List.drop_left]
    ring

/-- A `MovesCommitted` game with both moves revealed (1 beats 2). -/
def winGame : Game :=
  { game_id := 1, player_one := 10, player_two := some 11, stake_amount := 100,
    state := GameState.MovesCommitted,
    p1_commitment := u32_be_bytes 1 ++ exSalt,
    p2_commitment := u32_be_bytes 2 ++ exSalt,
    p1_move := 1, p2_move := 2, winner := none }

/-- A state holding `winGame` under id 1. -/
def winState : ContractState :=
  { counter := some 2, games := [(1, winGame)], players := regState.players,
    activeGames := some [1], transfers := [] }

/-- `winGame` after finalization: player one wins. -/
def winGameAfter : Game :=
  { winGame with state := GameState.Completed, winner := some 10 }

/-- `winState` after finalization: one transfer of the whole pot (200) to
player 10, stats updated, game unlisted. -/
def winStateAfter : ContractState :=
  { counter := some 2, games := [(1, winGameAfter)],
    players := [(10, { address := 10, wins := 1, losses := 0, draws := 0 }),
                (11, { address := 11, wins := 0, losses := 1, draws := 0 })],
    activeGames := some [], transfers := [(0, 10, 200)] }

/-- Witness for C2 on the concrete run `winState → winStateAfter`. -/
theorem finalize_settlement_conserves_escrow_witness :
    finalize_game allowAll 0 winState 1 = Except.ok (winStateAfter, winGameAfter) ∧
    ∃ p2, winGame.player_two = some p2 ∧
      ((∃ w, determine_winner winGame winGame.p1_move winGame.p2_move = some w ∧
          winStateAfter.transfers =
            winState.transfers ++ [(0, w, winGame.stake_amount * 2)]) ∨
       (determine_winner winGame winGame.p1_move winGame.p2_move = none ∧
        winStateAfter.transfers = winState.transfers ++
          [(0, winGame.player_one, winGame.stake_amount),
           (0, p2, winGame.stake_amount)])) ∧
      ((winStateAfter.transfers.drop winState.transfers.length).map
        (fun t => t.2.2)).sum = winGame.stake_amount * 2 :=
  ⟨by rfl,
    finalize_settlement_conserves_escrow allowAll 0 winState 1 winStateAfter
      winGameAfter winGame (by rfl) (by rfl)⟩

/-! ## C9 — stat updates at settlement -/

/-- **C9.** For every game finalized with a winner, settlement increments
the winner's `wins` by exactly 1 and the loser's `losses` by exactly 1,
leaving both `draws` untouched; for every game finalized as a draw, both
players' `draws` are incremented by exactly 1 and `wins`/`losses` are
untouched. -/
theorem finalize_updates_stats (tok : TokenFn) (caddr : Address)
    (s : ContractState) (game_id : Nat) (s' : ContractState) (gret : Game)
    (g : Game) (q : Address)
    (h : finalize_game tok caddr s game_id = Except.ok (s', gret))
    (hg : findVal s.games game_id = some g)
    (hq : g.player_two = some q)
    (hne : g.player_one ≠ q) :
    ∃ P1 P2, findVal s.players g.player_one = some P1 ∧
      findVal s.players q = some P2 ∧
      ((∀ w, determine_winner g g.p1_move g.p2_move = some w →
        (w = g.player_one →
          findVal s'.players g.player_one = some { P1 with wins := P1.wins + 1 } ∧
          findVal s'.players q = some { P2 with losses := P2.losses + 1 }) ∧
        (w = q →
          findVal s'.players g.player_one =
            some { P1 with losses := P1.losses + 1 } ∧
          findVal s'.players q = some { P2 with wins := P2.wins + 1 })) ∧
       (determine_winner g g.p1_move g.p2_move = none →
        findVal s'.players g.player_one = some { P1 with draws := P1.draws + 1 } ∧
        findVal s'.players q = some { P2 with draws := P2.draws + 1 })) := by
  obtain ⟨g0, p2, hg0, hp2, _, _, _, _, hcase⟩ :=
    finalize_game_ok_shape tok caddr s game_id s' gret h
  have hgg : g = g0 := Option.some_inj.mp (hg.symm.trans hg0)
  subst hgg
  have hqq : q = p2 := Option.some_inj.mp (hq.symm.trans hp2)
  subst hqq
  have hne' : q ≠ g.player_one := fun e => hne e.symm
  rcases hcase with ⟨w, P1, P2, hw, hP1, hP2, hs'⟩ | ⟨P1, P2, hw, hP1, hP2, hs'⟩
  · rw [findVal_setVal_ne _ _ _ _ hne'] at hP2
    refine ⟨P1, P2, hP1, hP2, ?_, ?_⟩
    · intro w' hw'
      have hww : w = w' := Option.some_inj.mp (hw.symm.trans hw')
      subst hww
      constructor
      · intro hwp
        have hwq : ¬ w = q := fun e => hne (hwp.symm.trans e)
        subst hs'
        constructor
        · simp [findVal_setVal_ne _ _ _ _ hne, findVal_setVal_self, hwp]
        · simp [findVal_setVal_self, hwq]
      · intro hwq
        have hwp : ¬ w = g.player_one := fun e => hne (e.symm.trans hwq)
        subst hs'
        constructor
        · simp [findVal_setVal_ne _ _ _ _ hne, findVal_setVal_self, hwp]
        · simp [findVal_setVal_self, hwq]
    · intro hnone
      exact absurd (hnone.symm.trans hw) (by simp)
  · rw [findVal_setVal_ne _ _ _ _ hne'] at hP2
    refine ⟨P1, P2, hP1, hP2, ?_, ?_⟩
    · intro w' hw'
      exact absurd (hw'.symm.trans hw) (by simp)
    · intro _
      subst hs'
      constructor
      · simp [findVal_setVal_ne _ _ _ _ hne, findVal_setVal_self]
      · simp [findVal_setVal_self]

/-- Witness for C9 on the concrete run `winState → winStateAfter`. -/
theorem finalize_updates_stats_witness :
    ∃ P1 P2, findVal winState.players winGame.player_one = some P1 ∧
      findVal winState.players 11 = some P2 ∧
      ((∀ w, determine_winner winGame winGame.p1_move winGame.p2_move = some w →
        (w = winGame.player_one →
          findVal winStateAfter.players winGame.player_one =
            some { P1 with wins := P1.wins + 1 } ∧
          findVal winStateAfter.players 11 =
            some { P2 with losses := P2.losses + 1 }) ∧
        (w = 11 →
          findVal winStateAfter.players winGame.player_one =
            some { P1 with losses := P1.losses + 1 } ∧
          findVal winStateAfter.players 11 =
            some { P2 with wins := P2.wins + 1 })) ∧
       (determine_winner winGame winGame.p1_move winGame.p2_move = none →
        findVal winStateAfter.players winGame.player_one =
          some { P1 with draws := P1.draws + 1 } ∧
        findVal winStateAfter.players 11 =
          some { P2 with draws := P2.draws + 1 })) :=
  finalize_updates_stats allowAll 0 winState 1 winStateAfter winGameAfter
    winGame 11 (by rfl) (by rfl) (by rfl) (by decide)

/-- `c6Game0` after player one commits the non-zero digest `c6Commit`. -/
def c6Game1 : Game := { c6Game0 with p1_commitment := c6Commit }

/-- `c6State0` after player one commits `c6Commit`. -/
def c6State1 : ContractState := { c6State0 with games := [(2, c6Game1)] }

/-- Witness for the amended C6: after a first non-zero commit, a second
commit by the same player fails with `AlreadyCommitted` and changes
nothing. -/
theorem commit_at_most_once_amended_witness :
    commit_move c6State1 2 10 (List.replicate 32 9) =
      Except.error Err.AlreadyCommitted ∧
    (if (10 : Nat) = c6Game1.player_one then c6Game1.p1_commitment
     else c6Game1.p2_commitment) = c6Commit ∧
    runOp (fun l => l) allowAll 0 c6State1 (Op.commit 2 10 (List.replicate 32 9)) =
      c6State1 :=
  commit_at_most_once_amended (fun l => l) allowAll 0 c6State0 2 10 c6Commit
    (List.replicate 32 9) c6State1 c6Game1 (by rfl) (by decide)

/-! ## C8 — the state machine is forward-only -/

/-- Numeric rank of the forward-only state chain. -/
def rank : GameState → Nat
  | GameState.WaitingForPlayer => 0
  | GameState.MovesCommitted => 1
  | GameState.Completed => 2

/-- Well-formedness of a stored game: past `WaitingForPlayer`, both
commitment slots are non-zero and a second player is present.  This holds
for every reachable game because `commit_move` only advances the state
once both slots are non-zero and no operation ever zeroes a slot. -/
def GameWF (g : Game) : Prop :=
  g.state ≠ GameState.WaitingForPlayer →
    (g.p1_commitment ≠ zeroDigest ∧ g.p2_commitment ≠ zeroDigest ∧
      g.player_two.isSome = true)

/-- Well-formedness of the store: every stored game is well-formed and
lives strictly below the id counter (ids are never reused). -/
def StateWF (s : ContractState) : Prop :=
  ∀ gid g, findVal s.games gid = some g → GameWF g ∧ gid < s.counter.getD 1

/-- Inversion of `Except.map Prod.fst`. -/
theorem map_fst_ok {α β : Type} (x : Except Err (α × β)) (s' : α)
    (h : Except.map Prod.fst x = Except.ok s') :
    ∃ y, x = Except.ok y ∧ y.1 = s' := by
  cases x with
  | error e => simp [Except.map] at h
  | ok y =>
      simp only [Except.map, Except.ok.injEq] at h
      exact ⟨y, rfl, h⟩

/-- `register_player` never touches the games table. -/
theorem register_player_games (s : ContractState) (p : Address) :
    ((register_player s p).1).games = s.games := by
  unfold register_player
  split <;> rfl

/-- Inversion of a successful `create_game`: the new id is the counter
value and only the fresh slot of the games table is written. -/
theorem create_game_ok_inv (tok : TokenFn) (caddr : Address)
    (s : ContractState) (creator : Address) (stake : Int)
    (s1 : ContractState) (gid1 : Nat)
    (h : create_game tok caddr s creator stake = Except.ok (s1, gid1)) :
    gid1 = s.counter.getD 1 ∧
    s1.games = setVal s.games gid1 (newGame gid1 creator stake) := by
  simp only [create_game, get_and_increment_counter] at h
  split at h
  · exact absurd h (by simp)
  next hreg =>
    split at h
    next e htok => exact absurd h (by simp)
    next st htok =>
      obtain ⟨_, hst⟩ := tokenTransfer_ok _ _ _ _ _ _ htok
      subst hst
      rw [Except.ok.injEq, Prod.mk.injEq] at h
      obtain ⟨hs1, hgid⟩ := h
      subst hs1
      subst hgid
      exact ⟨rfl, rfl⟩

/-- Inversion of a successful `join_game`: the game was waiting, and the
only games-table change is setting `player_two`. -/
theorem join_game_ok_inv (tok : TokenFn) (caddr : Address)
    (s : ContractState) (game_id : Nat) (player : Address)
    (s1 : ContractState) (g1 : Game)
    (h : join_game tok caddr s game_id player = Except.ok (s1, g1)) :
    ∃ game, findVal s.games game_id = some game ∧
      game.state = GameState.WaitingForPlayer ∧
      g1 = { game with player_two := some player } ∧
      s1.games = setVal s.games game_id g1 := by
  simp only [join_game] at h
  split at h
  · exact absurd h (by simp)
  next game hgame =>
    split at h
    · exact absurd h (by simp)
    next hstate =>
      split at h
      · exact absurd h (by simp)
      next hpt =>
        split at h
        · exact absurd h (by simp)
        next hself =>
          split at h
          · exact absurd h (by simp)
          next hreg =>
            split at h
            next e htok => exact absurd h (by simp)
            next st htok =>
              obtain ⟨_, hst⟩ := tokenTransfer_ok _ _ _ _ _ _ htok
              subst hst
              rw [Except.ok.injEq, Prod.mk.injEq] at h
              obtain ⟨hs1, hg1⟩ := h
              subst hs1
              subst hg1
              exact ⟨game, hgame, not_ne_iff.mp hstate, rfl, rfl⟩

/-- Inversion of a successful `commit_move`: a second player was present,
the caller's slot held the zero sentinel and receives the commitment, and
the state advances to `MovesCommitted` exactly if both slots are now
non-zero. -/
theorem commit_move_ok_inv (s : ContractState) (game_id : Nat)
    (player : Address) (commitment : Digest) (s1 : ContractState) (g1 : Game)
    (h : commit_move s game_id player commitment = Except.ok (s1, g1)) :
    ∃ game, findVal s.games game_id = some game ∧
      game.player_two.isSome = true ∧
      s1.games = setVal s.games game_id g1 ∧
      ∃ g0, ((player = game.player_one ∧ game.p1_commitment = zeroDigest ∧
               g0 = { game with p1_commitment := commitment }) ∨
             (¬ player = game.player_one ∧ some player = game.player_two ∧
               game.p2_commitment = zeroDigest ∧
               g0 = { game with p2_commitment := commitment })) ∧
        g1 = (if g0.p1_commitment ≠ zeroDigest ∧ g0.p2_commitment ≠ zeroDigest
              then { g0 with state := GameState.MovesCommitted } else g0) := by
  simp only [commit_move] at h
  split at h
  · exact absurd h (by simp)
  next game hgame =>
    split at h
    · exact absurd h (by simp)
    next hpt =>
      split at h
      next e hupd => exact absurd h (by simp)
      next g hupd =>
        rw [Except.ok.injEq, Prod.mk.injEq] at h
        obtain ⟨hs1, hg1⟩ := h
        subst hs1
        subst hg1
        refine ⟨game, hgame, by simp [Option.isSome_iff_ne_none]; simpa using hpt, rfl, g, ?_, rfl⟩
        split at hupd
        next hp1 =>
          split at hupd
          next hz =>
            rw [Except.ok.injEq] at hupd
            exact Or.inl ⟨hp1, hz, hupd.symm⟩
          next hz => exact absurd hupd (by simp)
        next hp1 =>
          split at hupd
          next hp2 =>
            split at hupd
            next hz =>
              rw [Except.ok.injEq] at hupd
              exact Or.inr ⟨hp1, hp2, hz, hupd.symm⟩
            next hz => exact absurd hupd (by simp)
          next hp2 => exact absurd hupd (by simp)

/-- Inversion of a successful `reveal_move`: the game was `MovesCommitted`
and only a move field changes — state, players and commitments are kept. -/
theorem reveal_move_ok_inv (hash : List Nat → Digest) (s : ContractState)
    (game_id : Nat) (player : Address) (move_choice : Nat) (salt : Digest)
    (s1 : ContractState) (g1 : Game)
    (h : reveal_move hash s game_id player move_choice salt = Except.ok (s1, g1)) :
    ∃ game, findVal s.games game_id = some game ∧
      game.state = GameState.MovesCommitted ∧
      s1.games = setVal s.games game_id g1 ∧
      g1.state = game.state ∧ g1.player_two = game.player_two ∧
      g1.p1_commitment = game.p1_commitment ∧
      g1.p2_commitment = game.p2_commitment := by
  simp only [reveal_move] at h
  split at h
  · exact absurd h (by simp)
  next game hgame =>
    split at h
    · exact absurd h (by simp)
    next hstate =>
      split at h
      · exact absurd h (by simp)
      next hmv =>
        split at h
        next e hupd => exact absurd h (by simp)
        next g hupd =>
          rw [Except.ok.injEq, Prod.mk.injEq] at h
          obtain ⟨hs1, hg1⟩ := h
          subst hs1
          subst hg1
          refine ⟨game, hgame, not_ne_iff.mp hstate, rfl, ?_⟩
          split at hupd
          next hp1 =>
            split at hupd
            next hz => exact absurd hupd (by simp)
            next hz =>
              split at hupd
              next hcm => exact absurd hupd (by simp)
              next hcm =>
                rw [Except.ok.injEq] at hupd
                subst hupd
                exact ⟨rfl, rfl, rfl, rfl⟩
          next hp1 =>
            split at hupd
            next hp2 =>
              split at hupd
              next hz => exact absurd hupd (by simp)
              next hz =>
                split at hupd
                next hcm => exact absurd hupd (by simp)
                next hcm =>
                  rw [Except.ok.injEq] at hupd
                  subst hupd
                  exact ⟨rfl, rfl, rfl, rfl⟩
            next hp2 => exact absurd hupd (by simp)

/-- **C8.** The game state machine is forward-only along
`WaitingForPlayer → MovesCommitted → Completed`.  For every well-formed
store and every successful operation: every stored game remains stored
with a state of equal or higher rank, moved forward by at most one step;
the only transitions are `WaitingForPlayer → MovesCommitted` by a
`commit_move` that made both commitment slots non-zero, and
`MovesCommitted → Completed` by `finalize_game`; a game already
`Completed` is never mutated.  Moreover a successful `commit_move` leaves
its game in `MovesCommitted` exactly when both slots are non-zero. -/
theorem state_machine_forward_only (hash : List Nat → Digest) (tok : TokenFn)
    (caddr : Address) (s s' : ContractState) (op : Op)
    (hWF : StateWF s)
    (h : applyOp hash tok caddr s op = Except.ok s') :
    (∀ gid g, findVal s.games gid = some g →
      ∃ g', findVal s'.games gid = some g' ∧
        rank g.state ≤ rank g'.state ∧
        rank g'.state ≤ rank g.state + 1 ∧
        (g'.state = g.state ∨
         (g.state = GameState.WaitingForPlayer ∧
          g'.state = GameState.MovesCommitted ∧
          (∃ p c, op = Op.commit gid p c) ∧
          g'.p1_commitment ≠ zeroDigest ∧ g'.p2_commitment ≠ zeroDigest) ∨
         (g.state = GameState.MovesCommitted ∧
          g'.state = GameState.Completed ∧ op = Op.finalize gid)) ∧
        (g.state = GameState.Completed → g' = g)) ∧
    (∀ gid p c g', op = Op.commit gid p c →
      findVal s'.games gid = some g' →
      (g'.state = GameState.MovesCommitted ↔
        (g'.p1_commitment ≠ zeroDigest ∧ g'.p2_commitment ≠ zeroDigest))) := by
  cases op with
  | register p =>
      simp only [applyOp, Except.ok.injEq] at h
      subst h
      refine ⟨?_, ?_⟩
      · intro gid g hgid
        refine ⟨g, ?_, le_refl _, Nat.le_succ _, Or.inl rfl, fun _ => rfl⟩
        rw [register_player_games]
        exact hgid
      · intro gid p' c' g' hop _
        simp at hop
  | create cr st =>
      simp only [applyOp] at h
      obtain ⟨y, hcr, hfst⟩ := map_fst_ok _ _ h
      obtain ⟨s1, gid1⟩ := y
      have hs : s1 = s' := hfst
      subst hs
      obtain ⟨hgid1, hgames⟩ := create_game_ok_inv _ _ _ _ _ _ _ hcr
      refine ⟨?_, ?_⟩
      · intro gid g hgid
        have hlt : gid < s.counter.getD 1 := (hWF gid g hgid).2
        have hne : gid ≠ gid1 := by rw [hgid1]; exact Nat.ne_of_lt hlt
        refine ⟨g, ?_, le_refl _, Nat.le_succ _, Or.inl rfl, fun _ => rfl⟩
        rw [hgames, findVal_setVal_ne _ _ _ _ hne]
        exact hgid
      · intro gid p' c' g' hop _
        simp at hop
  | join gid0 p =>
      simp only [applyOp] at h
      obtain ⟨y, hj, hfst⟩ := map_fst_ok _ _ h
      obtain ⟨s1, g1⟩ := y
      have hs : s1 = s' := hfst
      subst hs
      obtain ⟨game, hgame, hwait, hg1, hgames⟩ := join_game_ok_inv _ _ _ _ _ _ _ hj
      refine ⟨?_, ?_⟩
      · intro gid g hgid
        by_cases he : gid = gid0
        · subst he
          have hgg : g = game := Option.some_inj.mp (hgid.symm.trans hgame)
          subst hgg
          subst hg1
          refine ⟨{ g with player_two := some p },
            by rw [hgames]; exact findVal_setVal_self _ _ _,
            le_refl _, Nat.le_succ _, Or.inl rfl, ?_⟩
          intro hcomp
          exact absurd (hwait.symm.trans hcomp) (by simp)
        · refine ⟨g, ?_, le_refl _, Nat.le_succ _, Or.inl rfl, fun _ => rfl⟩
          rw [hgames, findVal_setVal_ne _ _ _ _ he]
          exact hgid
      · intro gid p' c' g' hop _
        simp at hop
  | commit gid0 p c =>
      simp only [applyOp] at h
      obtain ⟨y, hcm, hfst⟩ := map_fst_ok _ _ h
      obtain ⟨s1, g1⟩ := y
      have hs : s1 = s' := hfst
      subst hs
      obtain ⟨game, hgame, hpt, hgames, g0, hbranch, hg1⟩ :=
        commit_move_ok_inv _ _ _ _ _ _ hcm
      have hzero : game.p1_commitment = zeroDigest ∨
          game.p2_commitment = zeroDigest := by
        rcases hbranch with ⟨_, hz, _⟩ | ⟨_, _, hz, _⟩
        · exact Or.inl hz
        · exact Or.inr hz
      have hwait : game.state = GameState.WaitingForPlayer := by
        by_contra hnw
        obtain ⟨h1, h2, _⟩ := (hWF gid0 game hgame).1 hnw
        rcases hzero with hz | hz
        · exact h1 hz
        · exact h2 hz
      have hg0state : g0.state = game.state := by
        rcases hbranch with ⟨_, _, hgg0⟩ | ⟨_, _, _, hgg0⟩ <;> subst hgg0 <;> rfl
      have hg1state : (g1.state = GameState.MovesCommitted ∧
          g1.p1_commitment ≠ zeroDigest ∧ g1.p2_commitment ≠ zeroDigest) ∨
          (g1.state = GameState.WaitingForPlayer ∧
           ¬(g1.p1_commitment ≠ zeroDigest ∧ g1.p2_commitment ≠ zeroDigest)) := by
        by_cases hboth : g0.p1_commitment ≠ zeroDigest ∧ g0.p2_commitment ≠ zeroDigest
        · rw [if_pos hboth] at hg1
          subst hg1
          exact Or.inl ⟨rfl, hboth.1, hboth.2⟩
        · rw [if_neg hboth] at hg1
          subst hg1
          exact Or.inr ⟨hg0state.trans hwait, hboth⟩
      refine ⟨?_, ?_⟩
      · intro gid g hgid
        by_cases he : gid = gid0
        · subst he
          have hgg : g = game := Option.some_inj.mp (hgid.symm.trans hgame)
          subst hgg
          refine ⟨g1, by rw [hgames]; exact findVal_setVal_self _ _ _,
            ?_, ?_, ?_, ?_⟩
          · rw [hwait]
            exact Nat.zero_le _
          · rw [hwait]
            rcases hg1state with ⟨hst, _⟩ | ⟨hst, _⟩ <;> rw [hst] <;> simp [rank]
          · rcases hg1state with ⟨hst, hn1, hn2⟩ | ⟨hst, _⟩
            · exact Or.inr (Or.inl ⟨hwait, hst, ⟨p, c, rfl⟩, hn1, hn2⟩)
            · exact Or.inl (hst.trans hwait.symm)
          · intro hcomp
            exact absurd (hwait.symm.trans hcomp) (by simp)
        · refine ⟨g, ?_, le_refl _, Nat.le_succ _, Or.inl rfl, fun _ => rfl⟩
          rw [hgames, findVal_setVal_ne _ _ _ _ he]
          exact hgid
      · intro gid p' c' g' hop hfind
        injection hop with e1 e2 e3
        subst e1
        subst e2
        subst e3
        rw [hgames, findVal_setVal_self, Option.some.injEq] at hfind
        subst hfind
        rcases hg1state with ⟨hst, hn1, hn2⟩ | ⟨hst, hnb⟩
        · rw [hst]
          simp [hn1, hn2]
        · rw [hst]
          constructor
          · intro hh
            exact absurd hh (by simp)
          · intro hh
            exact (hnb hh).elim
  | reveal gid0 p m salt =>
      simp only [applyOp] at h
      obtain ⟨y, hr, hfst⟩ := map_fst_ok _ _ h
      obtain ⟨s1, g1⟩ := y
      have hs : s1 = s' := hfst
      subst hs
      obtain ⟨game, hgame, hmc, hgames, hstg1, _, _, _⟩ :=
        reveal_move_ok_inv _ _ _ _ _ _ _ _ hr
      refine ⟨?_, ?_⟩
      · intro gid g hgid
        by_cases he : gid = gid0
        · subst he
          have hgg : g = game := Option.some_inj.mp (hgid.symm.trans hgame)
          subst hgg
          have hse : g1.state = g.state := hstg1
          refine ⟨g1, by rw [hgames]; exact findVal_setVal_self _ _ _,
            ?_, ?_, Or.inl hse, ?_⟩
          · rw [hse]
          · rw [hse]
            exact Nat.le_succ _
          · intro hcomp
            exact absurd (hmc.symm.trans hcomp) (by simp)
        · refine ⟨g, ?_, le_refl _, Nat.le_succ _, Or.inl rfl, fun _ => rfl⟩
          rw [hgames, findVal_setVal_ne _ _ _ _ he]
          exact hgid
      · intro gid p' c' g' hop _
        simp at hop
  | finalize gid0 =>
      simp only [applyOp] at h
      obtain ⟨y, hf, hfst⟩ := map_fst_ok _ _ h
      obtain ⟨s1, g1⟩ := y
      have hs : s1 = s' := hfst
      subst hs
      obtain ⟨game, p2, hgame, hp2, hmc, _, _, hgret, hcase⟩ :=
        finalize_game_ok_shape _ _ _ _ _ _ hf
      have hgames : s1.games = setVal s.games gid0 g1 := by
        rcases hcase with ⟨w, P1, P2, _, _, _, hs1⟩ | ⟨P1, P2, _, _, _, hs1⟩ <;>
          subst hs1 <;> rfl
      have hg1state : g1.state = GameState.Completed := by rw [hgret]
      refine ⟨?_, ?_⟩
      · intro gid g hgid
        by_cases he : gid = gid0
        · subst he
          have hgg : g = game := Option.some_inj.mp (hgid.symm.trans hgame)
          subst hgg
          refine ⟨g1, by rw [hgames]; exact findVal_setVal_self _ _ _,
            ?_, ?_, Or.inr (Or.inr ⟨hmc, hg1state, rfl⟩), ?_⟩
          · rw [hmc, hg1state]
            simp [rank]
          · rw [hmc, hg1state]
            simp [rank]
          · intro hcomp
            exact absurd (hmc.symm.trans hcomp) (by simp)
        · refine ⟨g, ?_, le_refl _, Nat.le_succ _, Or.inl rfl, fun _ => rfl⟩
          rw [hgames, findVal_setVal_ne _ _ _ _ he]
          exact hgid
      · intro gid p' c' g' hop _
        simp at hop

/-- The concrete pre-finalize state `winState` is well-formed. -/
theorem winState_WF : StateWF winState := by
  intro gid g hg
  simp only [winState, findVal] at hg
  split at hg
  next h1 =>
    rw [Option.some.injEq] at hg
    subst hg
    refine ⟨fun _ => ⟨by decide, by decide, rfl⟩, ?_⟩
    rw [← h1]
    decide
  next h1 => exact absurd hg (by simp [findVal])

/-- Witness for C8: finalizing `winState`'s game performs exactly the
`MovesCommitted → Completed` transition. -/
theorem state_machine_forward_only_witness :
    ∃ g', findVal winStateAfter.games 1 = some g' ∧
      rank winGame.state ≤ rank g'.state ∧
      rank g'.state ≤ rank winGame.state + 1 ∧
      (g'.state = winGame.state ∨
       (winGame.state = GameState.WaitingForPlayer ∧
        g'.state = GameState.MovesCommitted ∧
        (∃ p c, Op.finalize 1 = Op.commit 1 p c) ∧
        g'.p1_commitment ≠ zeroDigest ∧ g'.p2_commitment ≠ zeroDigest) ∨
       (winGame.state = GameState.MovesCommitted ∧
        g'.state = GameState.Completed ∧ Op.finalize 1 = Op.finalize 1)) ∧
      (winGame.state = GameState.Completed → g' = winGame) :=
  (state_machine_forward_only (fun l => l) allowAll 0 winState winStateAfter
    (Op.finalize 1) winState_WF (by rfl)).1 1 winGame (by rfl)

end StellarDuels
